import Mathlib

/-!
Shallow embedding of the jqdata client core (the jqdata-blocking crate and
the async crate sharing jqdata-model): the error taxonomy, the envelope
builder generated by the derive crate, the body consumer strategies, and
the credential lifecycle (token exchange, refresh, execute).

Conventions of the embedding:
* Rust strings are modelled as Lean `String` where only prefix tests and
  equality matter, and as `List Char` where line splitting or character
  scanning is analysed.
* Fallible Rust functions returning `Result<T, Error>` become
  `Except Error T`; the question-mark operator becomes an explicit match.
* The csv crate reader is abstracted at the record level: the consumer
  receives the already lexed header record and data records, plus the
  row deserializer as a function, mirroring `reader.headers()` and
  `reader.deserialize()`.
* The HTTP layer is abstracted as a transport function from the request
  JSON value to the response text or a transport failure.
* Mutation through a mutable reference becomes explicit state passing: a
  function returns the new state, and returning `Except.error` means the
  caller keeps the old state, matching code whose writes all occur after
  the failure checks.
-/

/-- Error taxonomy of jqdata-blocking/src/error.rs. Variants that wrap a
foreign error value keep only its display message. -/
inductive Error where
  | Reqwest (msg : String)
  | Server (msg : String)
  | Client (msg : String)
  | Serde (msg : String)
  | Csv (msg : String)
  | Json (msg : String)
  | Io (msg : String)
  | Utf8 (msg : String)
  deriving DecidableEq, Repr

/-- Classification of the DecodeError kind of the spec (section 7) onto
the concrete variants: malformed csv rows, json mismatches, serde
failures and utf8 failures. Server, Client, Reqwest and Io carry the
other kinds of the taxonomy. -/
def Error.isDecode : Error → Bool
  | .Serde _ => true
  | .Csv _ => true
  | .Json _ => true
  | .Utf8 _ => true
  | _ => false

/-- Byte-prefix test str::starts_with of the Rust std library, modelled on
the character lists of the two strings. -/
def str_starts_with (s pre : String) : Bool :=
  pre.data.isPrefixOf s.data

/-- Minimal JSON value model used by the envelope builder, mirroring the
serde_json Value type with objects as ordered field lists. -/
inductive Json where
  | null
  | bool (b : Bool)
  | num (n : Int)
  | str (s : String)
  | arr (xs : List Json)
  | obj (fields : List (String × Json))

/-- Lookup of a key in a JSON object field list, first match wins, as in a
serde_json map. -/
def jsonLookup (k : String) : List (String × Json) → Option Json
  | [] => none
  | (k2, v) :: rest => if k2 = k then some v else jsonLookup k rest

/-- Insert of a serde_json map: when the key is present its value is
replaced in place, otherwise the entry is appended. -/
def jsonInsert (k : String) (v : Json) : List (String × Json) → List (String × Json)
  | [] => [(k, v)]
  | (k2, v2) :: rest =>
    if k2 = k then (k, v) :: rest else (k2, v2) :: jsonInsert k v rest

/-- Envelope builder generated by impl_request_for_struct of
jqdata-derive/src/lib.rs: serialize the command, require a JSON object,
then insert the method and the token entries, each replacing any command
field of the same name. The serialize-to-string round trip of the Rust
code is kept at the Json value level, and the display of the offending
value in the client error message is dropped. -/
def build_request (payload : Json) (methodName token : String) : Except Error Json :=
  match payload with
  | .obj fields =>
    let fields := jsonInsert "method" (.str methodName) fields
    let fields := jsonInsert "token" (.str token) fields
    .ok (.obj fields)
  | _ => .error (.Client "unexpected json value")

/-- Row loop of the tabular consumer: each record is deserialized in
order, the first failure aborts the whole decoding, mirroring the
question-mark operator inside the for loop over reader.deserialize(). -/
def consume_rows {ρ : Type} (dec : List String → Except Error ρ) :
    List (List String) → Except Error (List ρ)
  | [] => .ok []
  | r :: rs =>
    match dec r with
    | .error e => .error e
    | .ok v =>
      match consume_rows dec rs with
      | .error e => .error e
      | .ok vs => .ok (v :: vs)

/-- Tabular consumer consume_csv of jqdata-blocking/src/model.rs (the
same logic as CsvListBodyConsumer::consume of jqdata-model/src/models.rs):
the first record is the header; an empty header record is the empty-body
server error; a first header cell starting with error is the sentinel
server error; otherwise every data record is deserialized in order. The
record lexing of the csv crate is abstracted: headers and rows arrive as
records, dec is the row deserializer. -/
def consume_csv {ρ : Type} (dec : List String → Except Error ρ)
    (headers : List String) (rows : List (List String)) : Except Error (List ρ) :=
  match headers with
  | [] => .error (.Server "empty response body returned")
  | first :: _ =>
    if str_starts_with first "error" then .error (.Server first)
    else consume_rows dec rows

/-- Line splitting of the Rust std BufRead lines iterator, modelled on the
character list of the body: read_line cuts the stream at every newline;
the terminating newline is removed together with one carriage return
directly before it; a final line without terminator is kept as is,
including any trailing carriage return; the empty stream yields no line. -/
def rust_lines : List Char → List (List Char)
  | [] => []
  | '\r' :: '\n' :: cs => [] :: rust_lines cs
  | '\n' :: cs => [] :: rust_lines cs
  | c :: cs =>
    match rust_lines cs with
    | [] => [[c]]
    | l :: ls => (c :: l) :: ls

/-- Joining a list of lines with single newline characters, used by the
round-trip statements about the line consumer. -/
def join_lines : List (List Char) → List Char
  | [] => []
  | [l] => l
  | l :: ls => l ++ '\n' :: join_lines ls

/-- LineList consumer consume_line of jqdata-blocking/src/model.rs (the
same logic as LineBodyConsumer::consume of jqdata-model/src/models.rs):
every line of the body becomes one element of the result; there is no
sentinel check and no failure path once the body is valid text. -/
def consume_line (body : List Char) : Except Error (List (List Char)) :=
  .ok (rust_lines body)

/-- Error kinds of the Rust core ParseIntError. -/
inductive PIEKind where
  | empty
  | invalidDigit
  | posOverflow
  | negOverflow
  deriving DecidableEq, Repr

/-- Display messages of ParseIntError, relevant because the error
conversion in jqdata-blocking/src/error.rs stores the formatted message. -/
def pie_message : PIEKind → String
  | .empty => "cannot parse integer from empty string"
  | .invalidDigit => "invalid digit found in string"
  | .posOverflow => "number too large to fit in target type"
  | .negOverflow => "number too small to fit in target type"

/-- Decimal digit value of a character, none for a non-digit. -/
def digit_val (c : Char) : Option Nat :=
  if c.isDigit then some (c.toNat - '0'.toNat) else none

/-- Digit loop of the Rust core i32 from_str on a non-negative
accumulator: each step multiplies by ten and adds the digit, failing with
posOverflow once the i32 maximum would be exceeded, and failing with
invalidDigit at the first non-digit character. -/
def parse_pos_i32 : List Char → Int → Except PIEKind Int
  | [], acc => .ok acc
  | c :: cs, acc =>
    match digit_val c with
    | none => .error .invalidDigit
    | some d =>
      let acc2 := acc * 10 + d
      if acc2 > 2147483647 then .error .posOverflow else parse_pos_i32 cs acc2

/-- Digit loop of the Rust core i32 from_str on a non-positive
accumulator: each step multiplies by ten and subtracts the digit, failing
with negOverflow once the value would pass below the i32 minimum. -/
def parse_neg_i32 : List Char → Int → Except PIEKind Int
  | [], acc => .ok acc
  | c :: cs, acc =>
    match digit_val c with
    | none => .error .invalidDigit
    | some d =>
      let acc2 := acc * 10 - d
      if acc2 < -2147483648 then .error .negOverflow else parse_neg_i32 cs acc2

/-- Rust core i32 from_str: empty input is the empty error, a bare sign is
an invalid digit, otherwise an optional sign followed by the digit loop. -/
def parse_i32 : List Char → Except PIEKind Int
  | [] => .error .empty
  | ['+'] => .error .invalidDigit
  | ['-'] => .error .invalidDigit
  | '+' :: cs => parse_pos_i32 cs 0
  | '-' :: cs => parse_neg_i32 cs 0
  | cs => parse_pos_i32 cs 0

/-- Scalar consumer consume_single of jqdata-blocking/src/model.rs at the
integer type i32: the whole body is read as text and parsed; a parse
failure is converted through the From instance for ParseIntError of
jqdata-blocking/src/error.rs, which wraps the formatted message in the
Server variant. -/
def consume_single_i32 (body : List Char) : Except Error Int :=
  match parse_i32 body with
  | .ok v => .ok v
  | .error e => .error (.Server (pie_message e))

/-- Credential pair stored by the async client of src/lib.rs. -/
structure ClientCredential where
  mob : String
  pwd : String
  deriving DecidableEq, Repr

/-- Shared state of the async client of src/lib.rs: the optional
credential and the current token. -/
structure SharedClient where
  credential : Option ClientCredential
  token : String
  deriving DecidableEq, Repr

/-- Token exchange request body sent by get_token of
jqdata-blocking/src/cli.rs, with the reuse flag selecting the method
name, and by refresh_token of src/lib.rs, which always reuses. -/
def token_request (mob pwd : String) (reuse : Bool) : Json :=
  .obj [("method", .str (if reuse then "get_current_token" else "get_token")),
        ("mob", .str mob), ("pwd", .str pwd)]

/-- Token exchange get_token of jqdata-blocking/src/cli.rs: post the
request, read the response text, fail with the Server variant when the
text starts with the sentinel, otherwise the text is the token. The
network is abstracted as the transport function, whose failures model
the propagated reqwest errors. -/
def get_token (mob pwd : String) (reuse : Bool)
    (transport : Json → Except Error String) : Except Error String :=
  match transport (token_request mob pwd reuse) with
  | .error e => .error e
  | .ok token =>
    if str_starts_with token "error" then .error (.Server token) else .ok token

/-- Blocking client of jqdata-blocking/src/cli.rs, holding only a token. -/
structure BJqdataClient where
  token : String
  deriving DecidableEq, Repr

/-- Constructor with_credential of jqdata-blocking/src/cli.rs: eager token
exchange with reuse, the client value exists only when the exchange
succeeds. -/
def with_credential (mob pwd : String)
    (transport : Json → Except Error String) : Except Error BJqdataClient :=
  match get_token mob pwd true transport with
  | .error e => .error e
  | .ok token => .ok { token }

/-- Constructor with_token of jqdata-blocking/src/cli.rs. -/
def with_token (token : String) : Except Error BJqdataClient :=
  .ok { token }

/-- Refresh refresh_token of src/lib.rs as a state transition: without a
credential it fails; otherwise the exchange response becomes the new
token unless it starts with the sentinel, in which case the failure is
returned and the incoming state stays authoritative, since in the code
the only write to the token field happens after the sentinel check. -/
def refresh_token (st : SharedClient)
    (transport : Json → Except Error String) : Except Error SharedClient :=
  match st.credential with
  | none => .error (.Client "credential not available to refresh token")
  | some cred =>
    match transport (token_request cred.mob cred.pwd true) with
    | .error e => .error e
    | .ok token =>
      if str_starts_with token "error" then .error (.Server token)
      else .ok { st with token := token }

/-- Constructor with_credential of src/lib.rs: build the state with the
credential and an empty token, then refresh eagerly; the client exists
only when the refresh succeeds. -/
def async_with_credential (mob pwd : String)
    (transport : Json → Except Error String) : Except Error SharedClient :=
  refresh_token { credential := some { mob, pwd }, token := "" } transport

/-- Envelope value of Request::new of jqdata-model/src/models.rs: the
token and method fields followed by the flattened payload fields. -/
def request_new (token methodName : String)
    (payloadFields : List (String × Json)) : Json :=
  .obj (("token", .str token) :: ("method", .str methodName) :: payloadFields)

/-- Dispatch execute of src/lib.rs: take the snapshot of the shared state,
build the envelope from its token, send it, and consume the response body
with the strategy of the command. The state is returned explicitly to
express the frame property: the code never writes through the shared
reference, it locks only to clone the snapshot, so every branch carries
the incoming state through unchanged. -/
def execute {T : Type} (st : SharedClient) (methodName : String)
    (payloadFields : List (String × Json))
    (transport : Json → Except Error String)
    (consume : String → Except Error T) : Except Error T × SharedClient :=
  let envelope := request_new st.token methodName payloadFields
  match transport envelope with
  | .error e => (.error e, st)
  | .ok respBody =>
    match consume respBody with
    | .error e => (.error e, st)
    | .ok out => (.ok out, st)

/-- Identity row deserializer, used to instantiate the generic consumers
in concrete witnesses. -/
def dec_id (r : List String) : Except Error (List String) :=
  .ok r

/-! Helper lemmas on the row loop, the json map operations and the line
splitter. -/

theorem consume_rows_len {ρ : Type} (dec : List String → Except Error ρ)
    (rows : List (List String)) (out : List ρ)
    (h : consume_rows dec rows = .ok out) : out.length = rows.length := by
  induction rows generalizing out with
  | nil => simp [consume_rows] at h; simp [← h]
  | cons r rs ih =>
    simp only [consume_rows] at h
    cases hr : dec r with
    | error e => simp [hr] at h
    | ok v =>
      cases hrs : consume_rows dec rs with
      | error e => simp [hr, hrs] at h
      | ok vs =>
        simp [hr, hrs] at h
        subst h
        simp [ih vs hrs]

theorem consume_rows_forall2 {ρ : Type} (dec : List String → Except Error ρ)
    (rows : List (List String)) (out : List ρ)
    (h : consume_rows dec rows = .ok out) :
    List.Forall₂ (fun r v => dec r = .ok v) rows out := by
  induction rows generalizing out with
  | nil => simp [consume_rows] at h; simp [← h]
  | cons r rs ih =>
    simp only [consume_rows] at h
    cases hr : dec r with
    | error e => simp [hr] at h
    | ok v =>
      cases hrs : consume_rows dec rs with
      | error e => simp [hr, hrs] at h
      | ok vs =>
        simp [hr, hrs] at h
        subst h
        exact List.Forall₂.cons hr (ih vs hrs)

theorem jsonLookup_insert_self (k : String) (v : Json) (l : List (String × Json)) :
    jsonLookup k (jsonInsert k v l) = some v := by
  induction l with
  | nil => simp [jsonInsert, jsonLookup]
  | cons p rest ih =>
    obtain ⟨k2, v2⟩ := p
    by_cases hk : k2 = k
    · simp [jsonInsert, hk, jsonLookup]
    · simp [jsonInsert, hk, jsonLookup, ih]

theorem jsonLookup_insert_ne (k k2 : String) (v : Json) (l : List (String × Json))
    (h : k2 ≠ k) : jsonLookup k2 (jsonInsert k v l) = jsonLookup k2 l := by
  induction l with
  | nil => simp [jsonInsert, jsonLookup, Ne.symm h]
  | cons p rest ih =>
    obtain ⟨k3, v3⟩ := p
    by_cases hk : k3 = k
    · subst hk
      simp [jsonInsert, jsonLookup, Ne.symm h, h]
    · simp [jsonInsert, hk, jsonLookup, ih]

theorem rust_lines_cons_other (c : Char) (cs : List Char)
    (h1 : ∀ cs2, c = '\r' → cs = '\n' :: cs2 → False) (h2 : c ≠ '\n') :
    rust_lines (c :: cs) =
      match rust_lines cs with
      | [] => [[c]]
      | l :: ls => (c :: l) :: ls := by
  rw [rust_lines.eq_def]
  split
  · rename_i heq; simp at heq
  · rename_i heq
    injection heq with hc hcs
    exact (h1 _ hc hcs).elim
  · rename_i heq; injection heq with hc _; exact absurd hc h2
  · rename_i heq
    injection heq with hc hcs
    subst hc; subst hcs; rfl

theorem rust_lines_eq_nil (cs : List Char) (h : rust_lines cs = []) : cs = [] := by
  induction cs using rust_lines.induct with
  | case1 => rfl
  | case2 cs ih => simp [rust_lines] at h
  | case3 cs ih => simp [rust_lines] at h
  | case4 c cs h1 h2 hnil ih =>
    rw [rust_lines_cons_other c cs h1 (fun hc => h2 hc)] at h
    rw [hnil] at h
    simp at h
  | case5 c cs h1 h2 l ls hcons ih =>
    rw [rust_lines_cons_other c cs h1 (fun hc => h2 hc)] at h
    rw [hcons] at h
    simp at h

theorem join_lines_nil_cons (l : List Char) (ls : List (List Char)) (h : ls ≠ []) :
    join_lines (l :: ls) = l ++ '\n' :: join_lines ls := by
  cases ls with
  | nil => exact absurd rfl h
  | cons l2 ls2 => rfl

theorem rust_lines_no_newline (body : List Char) (hne : body ≠ [])
    (hnl : '\n' ∉ body) : rust_lines body = [body] := by
  induction body with
  | nil => exact absurd rfl hne
  | cons c cs ih =>
    have hc : c ≠ '\n' := fun h => hnl (h ▸ List.mem_cons_self c cs)
    have hcs : '\n' ∉ cs := fun h => hnl (List.mem_cons_of_mem c h)
    rw [rust_lines_cons_other c cs
      (fun cs2 _ h2 => hcs (by rw [h2]; exact List.mem_cons_self '\n' cs2)) hc]
    cases cs with
    | nil => rfl
    | cons c2 cs2 => rw [ih (by simp) hcs]

/-! Theorems settling the claims. -/

/-- C1: for every Tabular response whose first header cell starts with the
literal text error, decoding fails with the Server error carrying that
whole first cell, and no data row is ever decoded, regardless of how many
rows follow the header. -/
theorem c1_tabular_sentinel_server_error {ρ : Type}
    (dec : List String → Except Error ρ) (first : String) (hs : List String)
    (rows : List (List String)) (h : str_starts_with first "error" = true) :
    consume_csv dec (first :: hs) rows = .error (.Server first) := by
  simp [consume_csv, h]

theorem c1_witness :
    str_starts_with "error: invalid token" "error" = true ∧
    consume_csv dec_id ["error: invalid token"]
        [["000001.XSHE"], ["000002.XSHE"]] =
      .error (.Server "error: invalid token") :=
  ⟨by decide, c1_tabular_sentinel_server_error dec_id _ _ _ (by decide)⟩

/-- C2: the envelope builder turns a command serialized as an object into
a single flat JSON object whose method and token entries hold the given
method name and token, and every command field with a different name is
kept unchanged; on a name collision the method and token entries of the
builder take precedence over the command field. -/
theorem c2_envelope_merge_precedence (fields : List (String × Json)) (m t : String) :
    ∃ merged, build_request (.obj fields) m t = .ok (.obj merged) ∧
      jsonLookup "method" merged = some (.str m) ∧
      jsonLookup "token" merged = some (.str t) ∧
      ∀ k, k ≠ "method" → k ≠ "token" → jsonLookup k merged = jsonLookup k fields := by
  refine ⟨jsonInsert "token" (.str t) (jsonInsert "method" (.str m) fields),
    rfl, ?_, ?_, ?_⟩
  · rw [jsonLookup_insert_ne "token" "method" (.str t) _ (by decide)]
    exact jsonLookup_insert_self "method" (.str m) fields
  · exact jsonLookup_insert_self "token" (.str t) _
  · intro k hm ht2
    rw [jsonLookup_insert_ne "token" k (.str t) _ ht2,
      jsonLookup_insert_ne "method" k (.str m) fields hm]

theorem c2_witness :
    ∃ merged,
      build_request (.obj [("method", Json.str "shadow"), ("code", Json.str "stock")])
          "get_all_securities" "abc" = .ok (.obj merged) ∧
      jsonLookup "method" merged = some (.str "get_all_securities") ∧
      jsonLookup "token" merged = some (.str "abc") ∧
      ∀ k, k ≠ "method" → k ≠ "token" →
        jsonLookup k merged =
          jsonLookup k [("method", Json.str "shadow"), ("code", Json.str "stock")] :=
  c2_envelope_merge_precedence
    [("method", Json.str "shadow"), ("code", Json.str "stock")] "get_all_securities" "abc"

/-- C3: a LineList response consisting of one line that starts with the
literal text error is decoded as ordinary data, the one-element sequence
holding that line, and the line consumer never produces a Server error,
because it performs no sentinel check. -/
theorem c3_linelist_error_is_data (body : List Char)
    (hpre : ("error".data).isPrefixOf body = true) (hnl : '\n' ∉ body) :
    consume_line body = .ok [body] ∧
    ∀ m, consume_line body ≠ .error (.Server m) := by
  have hne : body ≠ [] := by
    intro h
    subst h
    exact absurd hpre (by decide)
  constructor
  · simp [consume_line, rust_lines_no_newline body hne hnl]
  · intro m h
    simp [consume_line] at h

theorem c3_witness :
    ("error".data).isPrefixOf ['e', 'r', 'r', 'o', 'r', ':', ' ', 'x'] = true ∧
    consume_line ['e', 'r', 'r', 'o', 'r', ':', ' ', 'x'] =
      .ok [['e', 'r', 'r', 'o', 'r', ':', ' ', 'x']] ∧
    consume_line ['e', 'r', 'r', 'o', 'r', ':', ' ', 'x'] ≠
      .error (.Server "error: x") :=
  ⟨by decide,
    (c3_linelist_error_is_data _ (by decide) (by decide)).1,
    (c3_linelist_error_is_data _ (by decide) (by decide)).2 "error: x"⟩

/-- C4: credential-based construction performs the token exchange eagerly
in both clients; whenever the exchange response text starts with the
literal text error, construction fails with the Server error carrying the
full text, so no client value holding that text as a token is ever
produced. -/
theorem c4_with_credential_eager_failure (mob pwd resp : String)
    (transport : Json → Except Error String)
    (ht : transport (token_request mob pwd true) = .ok resp)
    (hs : str_starts_with resp "error" = true) :
    with_credential mob pwd transport = .error (.Server resp) ∧
    async_with_credential mob pwd transport = .error (.Server resp) := by
  constructor
  · simp [with_credential, get_token, ht, hs]
  · simp [async_with_credential, refresh_token, ht, hs]

theorem c4_witness :
    ((fun _ => (.ok "error: invalid credential" : Except Error String))
        (token_request "10000" "pass" true) =
      Except.ok "error: invalid credential") ∧
    str_starts_with "error: invalid credential" "error" = true ∧
    with_credential "10000" "pass" (fun _ => .ok "error: invalid credential") =
      .error (.Server "error: invalid credential") ∧
    async_with_credential "10000" "pass" (fun _ => .ok "error: invalid credential") =
      .error (.Server "error: invalid credential") :=
  ⟨rfl, by decide,
    (c4_with_credential_eager_failure "10000" "pass" _ _ rfl (by decide)).1,
    (c4_with_credential_eager_failure "10000" "pass" _ _ rfl (by decide)).2⟩

/-- C5: for a refresh with a stored credential, when the exchange response
starts with the sentinel the refresh fails with the Server error and no
new state is produced, so the previous token stays authoritative; when it
does not, the whole response text becomes the new token and the rest of
the state, the credential included, is unchanged. -/
theorem c5_refresh_sentinel_or_swap (st : SharedClient) (cred : ClientCredential)
    (resp : String) (transport : Json → Except Error String)
    (hc : st.credential = some cred)
    (ht : transport (token_request cred.mob cred.pwd true) = .ok resp) :
    (str_starts_with resp "error" = true →
      refresh_token st transport = .error (.Server resp)) ∧
    (str_starts_with resp "error" = false →
      refresh_token st transport = .ok { st with token := resp }) := by
  constructor <;> intro hs <;> simp [refresh_token, hc, ht, hs]

theorem c5_witness :
    (refresh_token { credential := some { mob := "m", pwd := "p" }, token := "old" }
        (fun _ => .ok "error: down") = .error (.Server "error: down")) ∧
    (refresh_token { credential := some { mob := "m", pwd := "p" }, token := "old" }
        (fun _ => .ok "newtok") =
      .ok { credential := some { mob := "m", pwd := "p" }, token := "newtok" }) :=
  ⟨(c5_refresh_sentinel_or_swap _ { mob := "m", pwd := "p" } "error: down" _
      rfl rfl).1 (by decide),
    (c5_refresh_sentinel_or_swap _ { mob := "m", pwd := "p" } "newtok" _
      rfl rfl).2 (by decide)⟩

/-- C6: for every Tabular response with a well-formed header and data rows
that all deserialize, decoding returns exactly one decoded value per row,
in the order of the rows. -/
theorem c6_tabular_decode_all_rows {ρ : Type} (dec : List String → Except Error ρ)
    (first : String) (hs : List String) (rows : List (List String)) (out : List ρ)
    (hgood : str_starts_with first "error" = false)
    (hdec : consume_rows dec rows = .ok out) :
    consume_csv dec (first :: hs) rows = .ok out ∧
    out.length = rows.length ∧
    List.Forall₂ (fun r v => dec r = .ok v) rows out :=
  ⟨by simp [consume_csv, hgood, hdec],
    consume_rows_len dec rows out hdec,
    consume_rows_forall2 dec rows out hdec⟩

theorem c6_witness :
    str_starts_with "code" "error" = false ∧
    consume_rows dec_id [["a"], ["b"]] = .ok [["a"], ["b"]] ∧
    (consume_csv dec_id ["code"] [["a"], ["b"]] = .ok [["a"], ["b"]] ∧
      ([["a"], ["b"]] : List (List String)).length =
        ([["a"], ["b"]] : List (List String)).length ∧
      List.Forall₂ (fun r v => dec_id r = .ok v) [["a"], ["b"]] [["a"], ["b"]]) :=
  ⟨by decide, rfl, c6_tabular_decode_all_rows dec_id "code" [] _ _ (by decide) rfl⟩

/-- C7 counterexample: on the body with a CRLF line ending the line
consumer strips the carriage return, so the first returned line differs
from the original line content and joining the result with newlines does
not reproduce the input, with or without a supplied trailing newline. -/
theorem c7_counterexample :
    consume_line ['a', '\r', '\n', 'b'] = .ok [['a'], ['b']] ∧
    join_lines [['a'], ['b']] ≠ ['a', '\r', '\n', 'b'] ∧
    join_lines [['a'], ['b']] ++ ['\n'] ≠ ['a', '\r', '\n', 'b'] :=
  ⟨rfl, by decide, by decide⟩

/-- C7 amended: for every LineList response body free of carriage
returns, decoding returns one string per line preserving order and
content, joining the result with newlines reproduces the input up to one
trailing newline, and the empty body yields the empty sequence, not an
error; a carriage return before a newline is stripped. -/
theorem c7_linelist_roundtrip_no_cr (body : List Char) (h : '\r' ∉ body) :
    consume_line body = .ok (rust_lines body) ∧
    (join_lines (rust_lines body) = body ∨
      join_lines (rust_lines body) ++ ['\n'] = body) ∧
    (body = [] → rust_lines body = []) := by
  refine ⟨rfl, ?_, fun hb => by rw [hb]; rfl⟩
  induction body with
  | nil => left; rfl
  | cons c cs ih =>
    have hcr : c ≠ '\r' := fun hc => h (hc ▸ List.mem_cons_self c cs)
    have hcs : '\r' ∉ cs := fun hm => h (List.mem_cons_of_mem c hm)
    by_cases hnl : c = '\n'
    · subst hnl
      rw [show rust_lines ('\n' :: cs) = [] :: rust_lines cs from rfl]
      cases hrl : rust_lines cs with
      | nil =>
        have : cs = [] := rust_lines_eq_nil cs hrl
        subst this
        right; rfl
      | cons l ls =>
        rw [join_lines_nil_cons [] (l :: ls) (by simp)]
        rcases ih hcs with h1 | h1 <;> rw [hrl] at h1
        · left; simp [h1]
        · right
          simp only [List.nil_append, List.cons_append]
          rw [← h1]
    · rw [rust_lines_cons_other c cs (fun _ hc _ => hcr hc) hnl]
      cases hrl : rust_lines cs with
      | nil =>
        have : cs = [] := rust_lines_eq_nil cs hrl
        subst this
        left; rfl
      | cons l ls =>
        have hjoin : join_lines ((c :: l) :: ls) = c :: join_lines (l :: ls) := by
          cases ls with
          | nil => rfl
          | cons l2 ls2 => simp [join_lines]
        rw [hjoin]
        rcases ih hcs with h1 | h1 <;> rw [hrl] at h1
        · left; rw [h1]
        · right
          simp only [List.cons_append]
          rw [h1]

theorem c7_witness :
    ('\r' ∉ ['a', '\n', '\n', 'b']) ∧
    (consume_line ['a', '\n', '\n', 'b'] = .ok (rust_lines ['a', '\n', '\n', 'b']) ∧
      (join_lines (rust_lines ['a', '\n', '\n', 'b']) = ['a', '\n', '\n', 'b'] ∨
        join_lines (rust_lines ['a', '\n', '\n', 'b']) ++ ['\n'] = ['a', '\n', '\n', 'b']) ∧
      (['a', '\n', '\n', 'b'] = ([] : List Char) →
        rust_lines ['a', '\n', '\n', 'b'] = [])) :=
  ⟨by decide, c7_linelist_roundtrip_no_cr ['a', '\n', '\n', 'b'] (by decide)⟩

/-- C8 counterexample: the empty body fails the scalar integer decoding,
but the failure is classified as a Server error carrying the parse error
message, not as a decode-class error, contradicting the claimed
DecodeError classification. -/
theorem c8_counterexample :
    consume_single_i32 [] = .error (.Server "cannot parse integer from empty string") ∧
    Error.isDecode (.Server "cannot parse integer from empty string") = false :=
  ⟨rfl, rfl⟩

/-- C8 amended: against the integer scalar type, the body 42 decodes to
the integer 42, and every body that does not parse as an i32, the empty
body included, fails with the Server error carrying the parse error
message, which is not a decode-class error. -/
theorem c8_scalar_parse_server_error :
    consume_single_i32 ['4', '2'] = .ok 42 ∧
    ∀ s e, parse_i32 s = .error e →
      consume_single_i32 s = .error (.Server (pie_message e)) ∧
        Error.isDecode (.Server (pie_message e)) = false := by
  refine ⟨rfl, ?_⟩
  intro s e hp
  exact ⟨by simp [consume_single_i32, hp], rfl⟩

theorem c8_witness :
    parse_i32 ['a'] = .error .invalidDigit ∧
    (consume_single_i32 ['a'] = .error (.Server (pie_message .invalidDigit)) ∧
      Error.isDecode (.Server (pie_message .invalidDigit)) = false) :=
  ⟨rfl, c8_scalar_parse_server_error.2 ['a'] .invalidDigit rfl⟩

/-- C9 counterexample: on an empty parsed header the tabular consumer
fails with the Server error whose message is the literal text of the
code, empty response body returned, which differs from the message the
claim states. -/
theorem c9_counterexample :
    consume_csv dec_id [] [] = .error (.Server "empty response body returned") ∧
    ("empty response body returned" : String) ≠ "empty response body" :=
  ⟨rfl, by decide⟩

/-- C9 amended: for every Tabular response whose parsed header column
list is empty, decoding fails with the Server error carrying the message
empty response body returned, and the empty header is never treated as an
empty result sequence. -/
theorem c9_empty_header_server_error {ρ : Type} (dec : List String → Except Error ρ)
    (rows : List (List String)) :
    consume_csv dec [] rows = .error (.Server "empty response body returned") ∧
    ∀ out, consume_csv dec [] rows ≠ .ok out := by
  refine ⟨rfl, ?_⟩
  intro out h
  simp [consume_csv] at h

theorem c9_witness :
    consume_csv dec_id [] [["row"]] = .error (.Server "empty response body returned") ∧
    consume_csv dec_id [] [["row"]] ≠ .ok [] :=
  ⟨(c9_empty_header_server_error dec_id [["row"]]).1,
    (c9_empty_header_server_error dec_id [["row"]]).2 []⟩

/-- C10: execute never modifies the stored client state: whatever the
transport and the body consumer return, the state after the call, its
token and its credential, are the ones the call started from. -/
theorem c10_execute_frame {T : Type} (st : SharedClient) (methodName : String)
    (payloadFields : List (String × Json))
    (transport : Json → Except Error String)
    (consume : String → Except Error T) :
    (execute st methodName payloadFields transport consume).2 = st ∧
    (execute st methodName payloadFields transport consume).2.token = st.token ∧
    (execute st methodName payloadFields transport consume).2.credential =
      st.credential := by
  have hframe : (execute st methodName payloadFields transport consume).2 = st := by
    cases ht : transport (request_new st.token methodName payloadFields) with
    | error e => simp [execute, ht]
    | ok r =>
      cases hc : consume r with
      | error e => simp [execute, ht, hc]
      | ok out => simp [execute, ht, hc]
  exact ⟨hframe, by rw [hframe], by rw [hframe]⟩
